import Mathlib

/-!
Verification development for the MetaGallery fungible-token contract
(src/ft/src/lib.rs).  The contract itself is a thin wrapper: the token-core
and storage-management entry points are mixed in at lines 92-93 via
`impl_fungible_token_core!` / `impl_fungible_token_storage!`, whose bodies are
macro-generated library code that is not part of this repository's sources.
Those operations are therefore modelled from the specification (spec.md),
while the pieces that are literally in lib.rs (initialization seeding the
owner with the whole supply, the logging hooks) are embedded from the source.

Balances are unsigned 128-bit integers, embedded as `Nat` with explicit
bound checks against `2 ^ 128 - 1`.  The ledger is an association list from
account identifier to balance; an account is registered iff it has an entry
(even a zero one).  A failing entry point panics in the NEAR runtime, which
rolls the whole invocation back; this is embedded by operations returning
`Except`, the caller's state being kept unchanged on `.error`.
-/

namespace MetaGalleryFT

/-- Account identifiers: opaque textual identifiers, syntactically validated
by the execution environment (validation is out of scope per spec section 1). -/
abbrev AccountId := String

/-- Maximum representable balance: spec section 3, range of a balance entry is
[0, 2^128 - 1]. -/
def U128_MAX : Nat := 2 ^ 128 - 1

/-- Error taxonomy from spec section 7. -/
inductive FTError where
  | InsufficientBalance
  | Overflow
  | AccountNotRegistered (account : AccountId)
  | AlreadyRegistered
  | NonZeroBalance
  | InsufficientStorageDeposit
  | ZeroAmount
  | SelfTransfer
  | RequiresExactOneYoctoDeposit
deriving Repr, DecidableEq

/-- Events emitted at state mutations (spec section 6: mint, transfer, burn). -/
inductive Event where
  | mintEv (owner : AccountId) (amount : Nat)
  | transferEv (sender receiver : AccountId) (amount : Nat) (memo : Option String)
  | burnEv (account : AccountId) (amount : Nat)
deriving Repr, DecidableEq

/-- The ledger state of the token: the account-to-balance mapping plus the
total-supply constant recorded at initialization (spec section 3). -/
structure FungibleToken where
  accounts : List (AccountId × Nat)
  total_supply : Nat
deriving Repr, DecidableEq

/-- Lookup of an account's ledger entry (first matching key). -/
def get_balance (accs : List (AccountId × Nat)) (a : AccountId) : Option Nat :=
  match accs with
  | [] => none
  | (k, v) :: rest => if k = a then some v else get_balance rest a

/-- Overwrite the (first) entry of an account already present in the ledger.
No implicit registration: an absent key is left absent (spec section 4.1). -/
def set_balance (accs : List (AccountId × Nat)) (a : AccountId) (b : Nat) :
    List (AccountId × Nat) :=
  match accs with
  | [] => []
  | (k, v) :: rest => if k = a then (k, b) :: rest else (k, v) :: set_balance rest a b

/-- Remove the (first) ledger entry of an account. -/
def remove_account (accs : List (AccountId × Nat)) (a : AccountId) :
    List (AccountId × Nat) :=
  match accs with
  | [] => []
  | (k, v) :: rest => if k = a then rest else (k, v) :: remove_account rest a

/-- Modelled from the spec (section 4.1, `balance_of`): returns 0 for any
unregistered or unknown account, never an error.  The generated
`ft_balance_of` of `impl_fungible_token_core!` is not in src/. -/
def balance_of (t : FungibleToken) (a : AccountId) : Nat :=
  match get_balance t.accounts a with
  | some b => b
  | none => 0

/-- Modelled from the spec (section 4.1, `total_supply`): constant after
initialization. -/
def ft_total_supply (t : FungibleToken) : Nat :=
  t.total_supply

/-- Sum of all ledger balance entries, the quantity the conservation law of
spec sections 3 and 8 speaks about. -/
def sum_balances (t : FungibleToken) : Nat :=
  (t.accounts.map Prod.snd).sum

/-- The keys of the ledger mapping are unique; this holds by construction for
every state reachable from initialization, and is assumed where a theorem
quantifies over an arbitrary ledger. -/
def nodup_keys (t : FungibleToken) : Prop :=
  (t.accounts.map Prod.fst).Nodup

/-- Modelled from the spec (section 4.2/4.4): the byte cost of persisted
state is a fixed protocol constant external to the core, consumed from the
execution environment; this is its concrete instantiation in the model. -/
def storage_byte_cost : Nat := 10000000000000000000

/-- Modelled from the spec (section 4.4): a ledger entry occupies a fixed
number of bytes (fixed-size entries, so storage bounds min = max). -/
def account_entry_bytes : Nat := 125

/-- Modelled from the spec (section 4.4): the minimum required registration
deposit, the storage cost of one ledger entry (bytes times byte cost). -/
def storage_min : Nat := account_entry_bytes * storage_byte_cost

/-- Modelled from the spec (section 4.4, `storage_bounds`): min and max
coincide for this fixed-entry-size ledger.  The generated
`storage_balance_bounds` of `impl_fungible_token_storage!` is not in src/. -/
def storage_balance_bounds : Nat × Nat := (storage_min, storage_min)

/-- Embedded from src/ft/src/lib.rs `Contract::new`: registers the owner and
deposits the full total supply into its entry, emitting a mint event
("Initial tokens supply is minted").  The library internals it calls
(`internal_register_account`, `internal_deposit`) are modelled from the spec. -/
def new_contract (owner_id : AccountId) (total_supply : Nat) :
    FungibleToken × List Event :=
  ({ accounts := [(owner_id, total_supply)], total_supply := total_supply },
   [.mintEv owner_id total_supply])

/-- Modelled from the spec (section 4.3, single-phase `transfer`; generated
`ft_transfer` of `impl_fungible_token_core!` is not in src/).  Requires
exactly 1 attached unit of native value, `sender != receiver`, `amount > 0`,
both accounts registered, sender balance at least `amount`, and the credited
balance within the 128-bit range; on success debits the sender and credits
the receiver atomically and emits a transfer event. -/
def ft_transfer (t : FungibleToken) (attached : Nat) (sender receiver : AccountId)
    (amount : Nat) (memo : Option String) :
    Except FTError (FungibleToken × List Event) :=
  if attached = 1 then
    if sender = receiver then .error .SelfTransfer
    else if amount = 0 then .error .ZeroAmount
    else
      match get_balance t.accounts sender with
      | none => .error (.AccountNotRegistered sender)
      | some sbal =>
        match get_balance t.accounts receiver with
        | none => .error (.AccountNotRegistered receiver)
        | some rbal =>
          if amount ≤ sbal then
            if rbal + amount ≤ U128_MAX then
              let accs1 := set_balance t.accounts sender (sbal - amount)
              let accs2 := set_balance accs1 receiver (rbal + amount)
              .ok ({ t with accounts := accs2 },
                   [.transferEv sender receiver amount memo])
            else .error .Overflow
          else .error .InsufficientBalance
  else .error .RequiresExactOneYoctoDeposit

/-- The ephemeral context of a suspended two-phase transfer (spec section 3,
Pending Transfer Context): the optimistic debit/credit has already been
applied when it exists. -/
structure PendingTransfer where
  sender : AccountId
  receiver : AccountId
  amount : Nat
deriving Repr, DecidableEq

/-- Modelled from the spec (section 4.3, phase 1 of `transfer_and_notify`;
generated `ft_transfer_call` is not in src/): identical validation and
optimistic application as the single-phase transfer, then suspends with a
pending-transfer context for the reconciliation phase. -/
def ft_transfer_call (t : FungibleToken) (attached : Nat)
    (sender receiver : AccountId) (amount : Nat) (memo : Option String) :
    Except FTError (FungibleToken × PendingTransfer × List Event) :=
  match ft_transfer t attached sender receiver amount memo with
  | .error e => .error e
  | .ok (t', evs) => .ok (t', ⟨sender, receiver, amount⟩, evs)

/-- Outcome of the receiver's notification call, as seen by reconciliation:
either it completed and reported an unused amount, or the call itself failed
(rejected/aborted). -/
inductive NotifyOutcome where
  | success (unused : Nat)
  | failed
deriving Repr, DecidableEq

/-- Modelled from the spec (section 4.3, phase 2): the unused amount the
reconciliation works with.  A failed notification is treated as `U = amount`;
a reported amount is clamped into the range `0 ≤ U ≤ amount` the spec
prescribes. -/
def unused_of (outcome : NotifyOutcome) (amount : Nat) : Nat :=
  match outcome with
  | .success u => min u amount
  | .failed => amount

/-- Modelled from the spec (section 4.3, phase 2 reconciliation; generated
`ft_resolve_transfer` of `impl_fungible_token_core!` is not in src/).
If the receiver is still registered, `min(U, receiver balance)` is reversed
from receiver back to sender (debit receiver, then credit sender); a
shortfall is absorbed without error; if the receiver was unregistered during
notification no reversal is attempted.  The spec does not define the case
where the sender's entry is absent at reconciliation; it is modelled as
performing no reversal (funds remain with the receiver), the reading
consistent with section 4.1 (credit requires registration) and the spec's
statement that total supply never changes.  Returns the updated ledger, the
amount actually kept by the receiver, and the emitted events. -/
def ft_resolve_transfer (t : FungibleToken) (p : PendingTransfer)
    (outcome : NotifyOutcome) : FungibleToken × Nat × List Event :=
  match get_balance t.accounts p.receiver with
  | none => (t, p.amount, [])
  | some rbal =>
    let refund := min (unused_of outcome p.amount) rbal
    if refund = 0 then (t, p.amount, [])
    else
      let accs1 := set_balance t.accounts p.receiver (rbal - refund)
      match get_balance accs1 p.sender with
      | none => (t, p.amount, [])
      | some sbal1 =>
          ({ t with accounts := set_balance accs1 p.sender (sbal1 + refund) },
           p.amount - refund,
           [.transferEv p.receiver p.sender refund none])

/-- Modelled from the spec (section 4.4, `register`; generated
`storage_deposit` of `impl_fungible_token_storage!` is not in src/).  Fails
with `AlreadyRegistered` if the account already has a ledger entry, with
`InsufficientStorageDeposit` if the attached value is below the registration
cost; on success creates a zero-balance entry and refunds the surplus
(returned alongside the new state). -/
def storage_deposit (t : FungibleToken) (attached : Nat) (account : AccountId) :
    Except FTError (FungibleToken × Nat) :=
  match get_balance t.accounts account with
  | some _ => .error .AlreadyRegistered
  | none =>
    if attached < storage_min then .error .InsufficientStorageDeposit
    else .ok ({ t with accounts := (account, 0) :: t.accounts },
              attached - storage_min)

/-- Modelled from the spec (section 4.4, `unregister`; generated
`storage_unregister` of `impl_fungible_token_storage!` is not in src/).
Fails with `NonZeroBalance` unless `force` or the balance is zero; on
success removes the ledger entry and reports `true`; `force` on a non-zero
balance burns the remaining balance, emitting a distinct burn event while
leaving the stored total-supply constant unchanged (spec sections 4.4 and 9).
An account with no entry is reported as not removed (`false`, spec
section 6 wire surface).  The refund of the storage deposit is a
native-value effect outside the ledger model.  The hook `on_account_closed`
of src/ft/src/lib.rs only logs. -/
def storage_unregister (t : FungibleToken) (account : AccountId) (force : Bool) :
    Except FTError (FungibleToken × Bool × List Event) :=
  match get_balance t.accounts account with
  | none => .ok (t, false, [])
  | some b =>
    if b = 0 || force then
      .ok ({ t with accounts := remove_account t.accounts account },
           true,
           if b = 0 then [] else [.burnEv account b])
    else .error .NonZeroBalance

/-- The full contract state: the ledger plus the contexts of the two-phase
transfers currently suspended awaiting their notification outcome. -/
structure ContractState where
  token : FungibleToken
  pending : List PendingTransfer
deriving Repr, DecidableEq

/-- The public operations of the core, as invoked by callers: registration,
single-phase transfer, the two phases of transfer-and-notify, and
unregistration. -/
inductive Op where
  | register (account : AccountId) (attached : Nat)
  | transfer (attached : Nat) (sender receiver : AccountId) (amount : Nat)
      (memo : Option String)
  | transferCallStart (attached : Nat) (sender receiver : AccountId) (amount : Nat)
      (memo : Option String)
  | transferCallResolve (idx : Nat) (outcome : NotifyOutcome)
  | unregister (account : AccountId) (force : Bool)
deriving Repr, DecidableEq

/-- One public call against the contract state.  A failing call panics in the
runtime and the whole invocation is rolled back, so the state is kept
unchanged on `.error` (spec sections 5 and 7: atomic abort).  Phase 2 of a
two-phase transfer consumes one suspended pending context. -/
def step (s : ContractState) (op : Op) : ContractState :=
  match op with
  | .register a att =>
    match storage_deposit s.token att a with
    | .ok (t', _) => { s with token := t' }
    | .error _ => s
  | .transfer att snd rcv amt memo =>
    match ft_transfer s.token att snd rcv amt memo with
    | .ok (t', _) => { s with token := t' }
    | .error _ => s
  | .transferCallStart att snd rcv amt memo =>
    match ft_transfer_call s.token att snd rcv amt memo with
    | .ok (t', p, _) => { token := t', pending := p :: s.pending }
    | .error _ => s
  | .transferCallResolve i outcome =>
    match s.pending.get? i with
    | some p =>
      { token := (ft_resolve_transfer s.token p outcome).1,
        pending := s.pending.eraseIdx i }
    | none => s
  | .unregister a force =>
    match storage_unregister s.token a force with
    | .ok (t', _, _) => { s with token := t' }
    | .error _ => s

/-- Run a sequence of public calls from a state. -/
def run (s : ContractState) (ops : List Op) : ContractState :=
  ops.foldl step s

/-- The contract state right after initialization (src/ft/src/lib.rs
`Contract::new`): the owner holds the whole supply, nothing is suspended. -/
def init_state (owner_id : AccountId) (total_supply : Nat) : ContractState :=
  { token := (new_contract owner_id total_supply).1, pending := [] }

/-- An operation that is not a forced unregistration (the forced-burn path
excluded by the conservation claim). -/
def no_forced_burn (op : Op) : Bool :=
  match op with
  | .unregister _ force => !force
  | _ => true

/-! Helper lemmas about the ledger association list. -/

theorem get_balance_set_balance_self (accs : List (AccountId × Nat)) (a : AccountId)
    (b v : Nat) (h : get_balance accs a = some v) :
    get_balance (set_balance accs a b) a = some b := by
  induction accs with
  | nil => simp [get_balance] at h
  | cons hd tl ih =>
    obtain ⟨k, w⟩ := hd
    by_cases hk : k = a
    · simp [get_balance, set_balance, hk]
    · simp [get_balance, set_balance, hk] at h ⊢
      exact ih h

theorem get_balance_set_balance_ne (accs : List (AccountId × Nat)) (a c : AccountId)
    (b : Nat) (h : c ≠ a) :
    get_balance (set_balance accs a b) c = get_balance accs c := by
  induction accs with
  | nil => simp [set_balance]
  | cons hd tl ih =>
    obtain ⟨k, w⟩ := hd
    by_cases hk : k = a
    · subst hk
      simp [get_balance, set_balance, Ne.symm h]
    · by_cases hc : k = c <;>
        simp [get_balance, set_balance, hk, hc, h, ih]

theorem sum_set_balance (accs : List (AccountId × Nat)) (a : AccountId) (b v : Nat)
    (h : get_balance accs a = some v) :
    ((set_balance accs a b).map Prod.snd).sum + v = (accs.map Prod.snd).sum + b := by
  induction accs with
  | nil => simp [get_balance] at h
  | cons hd tl ih =>
    obtain ⟨k, w⟩ := hd
    by_cases hk : k = a
    · simp [get_balance, hk] at h
      subst h
      simp [set_balance, hk]
      omega
    · simp [get_balance, set_balance, hk] at h ⊢
      have := ih h
      omega

theorem remove_account_of_none (accs : List (AccountId × Nat)) (a : AccountId)
    (h : get_balance accs a = none) : remove_account accs a = accs := by
  induction accs with
  | nil => simp [remove_account]
  | cons hd tl ih =>
    obtain ⟨k, w⟩ := hd
    by_cases hk : k = a
    · simp [get_balance, hk] at h
    · simp [get_balance, remove_account, hk] at h ⊢
      exact ih h

theorem sum_remove_account (accs : List (AccountId × Nat)) (a : AccountId) (v : Nat)
    (h : get_balance accs a = some v) :
    ((remove_account accs a).map Prod.snd).sum + v = (accs.map Prod.snd).sum := by
  induction accs with
  | nil => simp [get_balance] at h
  | cons hd tl ih =>
    obtain ⟨k, w⟩ := hd
    by_cases hk : k = a
    · simp [get_balance, hk] at h
      subst h
      simp [remove_account, hk]
      omega
    · simp [get_balance, remove_account, hk] at h ⊢
      have := ih h
      omega

theorem get_balance_none_of_not_mem (accs : List (AccountId × Nat)) (a : AccountId)
    (h : a ∉ accs.map Prod.fst) : get_balance accs a = none := by
  induction accs with
  | nil => simp [get_balance]
  | cons hd tl ih =>
    obtain ⟨k, w⟩ := hd
    simp only [List.map_cons, List.mem_cons, not_or] at h
    have hka : ¬k = a := fun hk => h.1 hk.symm
    simp [get_balance, hka, ih h.2]

theorem get_balance_remove_account_self (accs : List (AccountId × Nat))
    (a : AccountId) (h : (accs.map Prod.fst).Nodup) :
    get_balance (remove_account accs a) a = none := by
  induction accs with
  | nil => simp [remove_account, get_balance]
  | cons hd tl ih =>
    obtain ⟨k, w⟩ := hd
    simp only [List.map_cons, List.nodup_cons] at h
    by_cases hk : k = a
    · subst hk
      simp [remove_account]
      exact get_balance_none_of_not_mem tl k h.1
    · simp [remove_account, get_balance, hk]
      exact ih h.2

/-! Characterizations of the operations' successful outcomes. -/

theorem ft_transfer_ok_shape {t : FungibleToken} {att : Nat} {snd rcv : AccountId}
    {amt : Nat} {memo : Option String} {t' : FungibleToken} {evs : List Event}
    (h : ft_transfer t att snd rcv amt memo = .ok (t', evs)) :
    ∃ sbal rbal, att = 1 ∧ snd ≠ rcv ∧ amt ≠ 0 ∧
      get_balance t.accounts snd = some sbal ∧
      get_balance t.accounts rcv = some rbal ∧
      amt ≤ sbal ∧ rbal + amt ≤ U128_MAX ∧
      t' = { t with accounts := set_balance (set_balance t.accounts snd (sbal - amt)) rcv (rbal + amt) } ∧
      evs = [.transferEv snd rcv amt memo] := by
  unfold ft_transfer at h
  repeat' split at h
  all_goals simp_all

theorem storage_deposit_ok_shape {t : FungibleToken} {att : Nat} {a : AccountId}
    {t' : FungibleToken} {refund : Nat}
    (h : storage_deposit t att a = .ok (t', refund)) :
    get_balance t.accounts a = none ∧ storage_min ≤ att ∧
      t' = { t with accounts := (a, 0) :: t.accounts } ∧
      refund = att - storage_min := by
  unfold storage_deposit at h
  repeat' split at h
  all_goals simp_all

theorem storage_unregister_ok_shape {t : FungibleToken} {a : AccountId}
    {force : Bool} {t' : FungibleToken} {removed : Bool} {evs : List Event}
    (h : storage_unregister t a force = .ok (t', removed, evs)) :
    (get_balance t.accounts a = none ∧ t' = t ∧ removed = false ∧ evs = []) ∨
    (∃ b, get_balance t.accounts a = some b ∧ (b = 0 ∨ force = true) ∧
      t' = { t with accounts := remove_account t.accounts a } ∧
      removed = true ∧
      evs = if b = 0 then [] else [.burnEv a b]) := by
  unfold storage_unregister at h
  repeat' split at h
  all_goals simp_all

theorem ft_resolve_transfer_shape (t : FungibleToken) (p : PendingTransfer)
    (outcome : NotifyOutcome) :
    ft_resolve_transfer t p outcome = (t, p.amount, []) ∨
    (∃ rbal sbal1,
      get_balance t.accounts p.receiver = some rbal ∧
      min (unused_of outcome p.amount) rbal ≠ 0 ∧
      get_balance (set_balance t.accounts p.receiver (rbal - min (unused_of outcome p.amount) rbal)) p.sender = some sbal1 ∧
      ft_resolve_transfer t p outcome =
        ({ t with accounts := set_balance (set_balance t.accounts p.receiver (rbal - min (unused_of outcome p.amount) rbal)) p.sender (sbal1 + min (unused_of outcome p.amount) rbal) },
         p.amount - min (unused_of outcome p.amount) rbal,
         [.transferEv p.receiver p.sender (min (unused_of outcome p.amount) rbal) none])) := by
  cases hr : get_balance t.accounts p.receiver with
  | none => left; simp [ft_resolve_transfer, hr]
  | some rbal =>
    by_cases h0 : min (unused_of outcome p.amount) rbal = 0
    · left; simp [ft_resolve_transfer, hr, h0]
    · cases hs : get_balance (set_balance t.accounts p.receiver (rbal - min (unused_of outcome p.amount) rbal)) p.sender with
      | none => left; simp [ft_resolve_transfer, hr, h0, hs]
      | some sbal1 =>
        right
        refine ⟨rbal, sbal1, rfl, h0, ?_, ?_⟩
        · exact hs
        · simp [ft_resolve_transfer, hr, h0, hs]

theorem ft_transfer_call_ok_shape {t : FungibleToken} {att : Nat}
    {snd rcv : AccountId} {amt : Nat} {memo : Option String} {t' : FungibleToken}
    {p : PendingTransfer} {evs : List Event}
    (h : ft_transfer_call t att snd rcv amt memo = .ok (t', p, evs)) :
    ft_transfer t att snd rcv amt memo = .ok (t', evs) ∧ p = ⟨snd, rcv, amt⟩ := by
  unfold ft_transfer_call at h
  split at h
  all_goals simp_all

/-! Preservation of the total-supply constant and of the balance sum. -/

theorem ft_transfer_ok_sum {t : FungibleToken} {att : Nat} {snd rcv : AccountId}
    {amt : Nat} {memo : Option String} {t' : FungibleToken} {evs : List Event}
    (h : ft_transfer t att snd rcv amt memo = .ok (t', evs)) :
    sum_balances t' = sum_balances t ∧ t'.total_supply = t.total_supply := by
  obtain ⟨sbal, rbal, _, hne, _, hs, hr, hle, _, ht', _⟩ := ft_transfer_ok_shape h
  subst ht'
  have hr1 : get_balance (set_balance t.accounts snd (sbal - amt)) rcv = some rbal := by
    rw [get_balance_set_balance_ne _ _ _ _ (Ne.symm hne)]
    exact hr
  have e1 := sum_set_balance t.accounts snd (sbal - amt) sbal hs
  have e2 := sum_set_balance (set_balance t.accounts snd (sbal - amt)) rcv
    (rbal + amt) rbal hr1
  constructor
  · simp only [sum_balances] at *
    omega
  · rfl

theorem ft_resolve_transfer_sum (t : FungibleToken) (p : PendingTransfer)
    (outcome : NotifyOutcome) :
    sum_balances (ft_resolve_transfer t p outcome).1 = sum_balances t ∧
      (ft_resolve_transfer t p outcome).1.total_supply = t.total_supply := by
  rcases ft_resolve_transfer_shape t p outcome with heq | ⟨rbal, sbal1, hr, h0, hs, heq⟩
  · rw [heq]
    exact ⟨rfl, rfl⟩
  · rw [heq]
    have hle : min (unused_of outcome p.amount) rbal ≤ rbal := Nat.min_le_right _ _
    have e1 := sum_set_balance t.accounts p.receiver
      (rbal - min (unused_of outcome p.amount) rbal) rbal hr
    have e2 := sum_set_balance
      (set_balance t.accounts p.receiver (rbal - min (unused_of outcome p.amount) rbal))
      p.sender (sbal1 + min (unused_of outcome p.amount) rbal) sbal1 hs
    constructor
    · simp only [sum_balances] at *
      generalize hmin : min (unused_of outcome p.amount) rbal = refund at *
      omega
    · rfl

theorem step_total_supply (s : ContractState) (op : Op) :
    (step s op).token.total_supply = s.token.total_supply := by
  cases op with
  | register a att =>
    simp only [step]
    cases hd : storage_deposit s.token att a with
    | ok pr =>
      obtain ⟨t', refund⟩ := pr
      obtain ⟨-, -, ht', -⟩ := storage_deposit_ok_shape hd
      simp [ht']
    | error e => rfl
  | transfer att snd rcv amt memo =>
    simp only [step]
    cases hd : ft_transfer s.token att snd rcv amt memo with
    | ok pr =>
      obtain ⟨t', evs⟩ := pr
      simp [(ft_transfer_ok_sum hd).2]
    | error e => rfl
  | transferCallStart att snd rcv amt memo =>
    simp only [step]
    cases hd : ft_transfer_call s.token att snd rcv amt memo with
    | ok pr =>
      obtain ⟨t', p, evs⟩ := pr
      simp [(ft_transfer_ok_sum (ft_transfer_call_ok_shape hd).1).2]
    | error e => rfl
  | transferCallResolve i outcome =>
    simp only [step]
    cases hp : s.pending.get? i with
    | some p => simp [(ft_resolve_transfer_sum s.token p outcome).2]
    | none => rfl
  | unregister a force =>
    simp only [step]
    cases hd : storage_unregister s.token a force with
    | ok pr =>
      obtain ⟨t', removed, evs⟩ := pr
      rcases storage_unregister_ok_shape hd with ⟨-, ht', -, -⟩ | ⟨b, -, -, ht', -, -⟩
      · simp [ht']
      · simp [ht']
    | error e => rfl

theorem step_sum_balances (s : ContractState) (op : Op)
    (hop : no_forced_burn op = true) :
    sum_balances (step s op).token = sum_balances s.token := by
  cases op with
  | register a att =>
    simp only [step]
    cases hd : storage_deposit s.token att a with
    | ok pr =>
      obtain ⟨t', refund⟩ := pr
      obtain ⟨-, -, ht', -⟩ := storage_deposit_ok_shape hd
      simp [ht', sum_balances]
    | error e => rfl
  | transfer att snd rcv amt memo =>
    simp only [step]
    cases hd : ft_transfer s.token att snd rcv amt memo with
    | ok pr =>
      obtain ⟨t', evs⟩ := pr
      simp [(ft_transfer_ok_sum hd).1]
    | error e => rfl
  | transferCallStart att snd rcv amt memo =>
    simp only [step]
    cases hd : ft_transfer_call s.token att snd rcv amt memo with
    | ok pr =>
      obtain ⟨t', p, evs⟩ := pr
      simp [(ft_transfer_ok_sum (ft_transfer_call_ok_shape hd).1).1]
    | error e => rfl
  | transferCallResolve i outcome =>
    simp only [step]
    cases hp : s.pending.get? i with
    | some p => simp [(ft_resolve_transfer_sum s.token p outcome).1]
    | none => rfl
  | unregister a force =>
    simp only [no_forced_burn] at hop
    have hforce : force = false := by
      cases force <;> simp_all
    subst hforce
    simp only [step]
    cases hd : storage_unregister s.token a false with
    | ok pr =>
      obtain ⟨t', removed, evs⟩ := pr
      rcases storage_unregister_ok_shape hd with ⟨-, ht', -, -⟩ | ⟨b, hb, hz, ht', -, -⟩
      · simp [ht']
      · have hb0 : b = 0 := by
          rcases hz with hz | hz
          · exact hz
          · cases hz
        subst hb0
        have e1 := sum_remove_account s.token.accounts a 0 hb
        simp [ht', sum_balances] at *
        omega
    | error e => rfl

theorem run_total_supply (s : ContractState) (ops : List Op) :
    (run s ops).token.total_supply = s.token.total_supply := by
  induction ops generalizing s with
  | nil => rfl
  | cons op rest ih =>
    have : run s (op :: rest) = run (step s op) rest := rfl
    rw [this, ih, step_total_supply]

theorem run_sum_balances (s : ContractState) (ops : List Op)
    (h : ∀ op ∈ ops, no_forced_burn op = true) :
    sum_balances (run s ops).token = sum_balances s.token := by
  induction ops generalizing s with
  | nil => rfl
  | cons op rest ih =>
    have hrun : run s (op :: rest) = run (step s op) rest := rfl
    rw [hrun, ih (step s op) (fun o ho => h o (List.mem_cons_of_mem _ ho)),
      step_sum_balances s op (h op (List.mem_cons_self _ _))]

/-! The claims. -/

/-- Claim C1: Conservation: for every sequence of public operations consisting
of registrations, transfers (single- and two-phase), and unregistrations
without forced burn, the sum of all ledger balances equals total_supply after
every call (the sequences of the claim being exactly the prefixes of all op
lists), and total_supply itself is fixed at initialization and never changed
by any core operation (even a forced one). -/
theorem conservation_of_public_operations (owner_id : AccountId)
    (total_supply : Nat) (ops : List Op) :
    (run (init_state owner_id total_supply) ops).token.total_supply = total_supply ∧
    ((∀ op ∈ ops, no_forced_burn op = true) →
      sum_balances (run (init_state owner_id total_supply) ops).token = total_supply) := by
  constructor
  · rw [run_total_supply]
    rfl
  · intro h
    rw [run_sum_balances _ _ h]
    simp [init_state, new_contract, sum_balances]

theorem conservation_of_public_operations_witness :
    sum_balances (run (init_state "alice" 1000)
      [Op.register "bob" storage_min, Op.transfer 1 "alice" "bob" 300 none,
       Op.unregister "carol" false]).token = 1000 :=
  (conservation_of_public_operations "alice" 1000
    [Op.register "bob" storage_min, Op.transfer 1 "alice" "bob" 300 none,
     Op.unregister "carol" false]).2 (by decide)

/-- Claim C4: Forced unregistration with a non-zero balance removes the ledger
entry, burns the remaining balance (the circulating sum of balances drops by
exactly it), emits a distinct burn notification, and leaves the stored
total-supply value unchanged. -/
theorem forced_unregister_burns_balance (t : FungibleToken) (a : AccountId)
    (b : Nat) (hb : get_balance t.accounts a = some b) (hnz : b ≠ 0)
    (hnd : nodup_keys t) :
    ∃ t', storage_unregister t a true = .ok (t', true, [.burnEv a b]) ∧
      get_balance t'.accounts a = none ∧
      t'.total_supply = t.total_supply ∧
      sum_balances t' + b = sum_balances t := by
  refine ⟨{ t with accounts := remove_account t.accounts a }, ?_, ?_, rfl, ?_⟩
  · simp [storage_unregister, hb, hnz]
  · exact get_balance_remove_account_self _ _ hnd
  · exact sum_remove_account _ _ _ hb

theorem forced_unregister_burns_balance_witness :
    ∃ t', storage_unregister ⟨[("alice", 7), ("bob", 3)], 10⟩ "alice" true =
        .ok (t', true, [.burnEv "alice" 7]) ∧
      get_balance t'.accounts "alice" = none ∧
      t'.total_supply = 10 ∧
      sum_balances t' + 7 = sum_balances ⟨[("alice", 7), ("bob", 3)], 10⟩ :=
  forced_unregister_burns_balance ⟨[("alice", 7), ("bob", 3)], 10⟩ "alice" 7
    (by decide) (by decide) (by unfold nodup_keys; decide)

/-- Claim C5: Registering an account that already has a ledger entry always
fails with AlreadyRegistered, whatever the attached deposit, and such a
registration attempt never mutates the contract state, in particular not that
account's balance. -/
theorem register_already_registered_fails (t : FungibleToken) (att : Nat)
    (a : AccountId) (b : Nat) (h : get_balance t.accounts a = some b) :
    storage_deposit t att a = .error .AlreadyRegistered ∧
    (∀ pend : List PendingTransfer, step ⟨t, pend⟩ (.register a att) = ⟨t, pend⟩) ∧
    balance_of (step ⟨t, []⟩ (.register a att)).token a = balance_of t a := by
  refine ⟨?_, ?_, ?_⟩
  · simp [storage_deposit, h]
  · intro pend
    simp [step, storage_deposit, h]
  · simp [step, storage_deposit, h]

theorem register_already_registered_fails_witness :
    storage_deposit ⟨[("alice", 5)], 5⟩ storage_min "alice" =
      .error .AlreadyRegistered ∧
    (∀ pend : List PendingTransfer,
      step ⟨⟨[("alice", 5)], 5⟩, pend⟩ (.register "alice" storage_min) =
        ⟨⟨[("alice", 5)], 5⟩, pend⟩) ∧
    balance_of (step ⟨⟨[("alice", 5)], 5⟩, []⟩
        (.register "alice" storage_min)).token "alice" =
      balance_of ⟨[("alice", 5)], 5⟩ "alice" :=
  register_already_registered_fails ⟨[("alice", 5)], 5⟩ storage_min "alice" 5
    (by decide)

/-- Claim C6: Storage payment exactness for registration: with storage_min the
registration cost, attaching exactly storage_min succeeds and refunds zero;
attaching storage_min - 1 fails with InsufficientStorageDeposit; attaching
storage_min + k succeeds, creates a zero-balance entry, and refunds exactly k
to the caller. -/
theorem registration_storage_payment_exactness (t : FungibleToken)
    (a : AccountId) (k : Nat) (h : get_balance t.accounts a = none) :
    (∃ t', storage_deposit t storage_min a = .ok (t', 0) ∧
      get_balance t'.accounts a = some 0) ∧
    storage_deposit t (storage_min - 1) a = .error .InsufficientStorageDeposit ∧
    (∃ t', storage_deposit t (storage_min + k) a = .ok (t', k) ∧
      get_balance t'.accounts a = some 0) := by
  have hpos : 0 < storage_min := by
    norm_num [storage_min, account_entry_bytes, storage_byte_cost]
  refine ⟨⟨{ t with accounts := (a, 0) :: t.accounts }, ?_, by simp [get_balance]⟩,
    ?_, ⟨{ t with accounts := (a, 0) :: t.accounts }, ?_, by simp [get_balance]⟩⟩
  · simp [storage_deposit, h]
  · simp [storage_deposit, h, Nat.sub_lt hpos Nat.one_pos]
  · simp [storage_deposit, h]

theorem registration_storage_payment_exactness_witness :
    (∃ t', storage_deposit ⟨[("alice", 5)], 5⟩ storage_min "bob" = .ok (t', 0) ∧
      get_balance t'.accounts "bob" = some 0) ∧
    storage_deposit ⟨[("alice", 5)], 5⟩ (storage_min - 1) "bob" =
      .error .InsufficientStorageDeposit ∧
    (∃ t', storage_deposit ⟨[("alice", 5)], 5⟩ (storage_min + 42) "bob" =
        .ok (t', 42) ∧
      get_balance t'.accounts "bob" = some 0) :=
  registration_storage_payment_exactness ⟨[("alice", 5)], 5⟩ "bob" 42 (by decide)

/-- Claim C8: For every account identifier, registered or not, balance_of
returns an integer and never fails (it is a total function into Nat); for any
unregistered or unknown account it returns 0. -/
theorem balance_of_total_returns_zero_unregistered (t : FungibleToken)
    (a : AccountId) :
    (∃ n : Nat, balance_of t a = n) ∧
    (get_balance t.accounts a = none → balance_of t a = 0) := by
  refine ⟨⟨balance_of t a, rfl⟩, fun h => by simp [balance_of, h]⟩

theorem balance_of_total_returns_zero_unregistered_witness :
    (∃ n : Nat, balance_of ⟨[("alice", 5)], 5⟩ "unknown" = n) ∧
    balance_of ⟨[("alice", 5)], 5⟩ "unknown" = 0 :=
  ⟨(balance_of_total_returns_zero_unregistered ⟨[("alice", 5)], 5⟩ "unknown").1,
   (balance_of_total_returns_zero_unregistered ⟨[("alice", 5)], 5⟩ "unknown").2
     (by decide)⟩

/-- Claim C2: Two-phase reconciliation contract: after the transfer has been
optimistically applied and suspended, if the notification outcome yields
unused amount U (a failed notification call counting as U = amount, a
successful one reporting u with u ≤ amount counting as U = u) and the
receiver is still registered, exactly min(U, receiver's current balance) is
moved back from receiver to sender (the sender here still registered, the
only reconciliation case the specification defines); any shortfall is
absorbed without error; and the value returned to the original caller is the
amount actually kept by the receiver (amount minus what was reversed). -/
theorem two_phase_reconciliation_contract (t : FungibleToken)
    (p : PendingTransfer) (outcome : NotifyOutcome) (sbal rbal : Nat)
    (hne : p.sender ≠ p.receiver)
    (hs : get_balance t.accounts p.sender = some sbal)
    (hr : get_balance t.accounts p.receiver = some rbal) :
    balance_of (ft_resolve_transfer t p outcome).1 p.receiver =
      rbal - min (unused_of outcome p.amount) rbal ∧
    balance_of (ft_resolve_transfer t p outcome).1 p.sender =
      sbal + min (unused_of outcome p.amount) rbal ∧
    (ft_resolve_transfer t p outcome).2.1 =
      p.amount - min (unused_of outcome p.amount) rbal ∧
    unused_of .failed p.amount = p.amount ∧
    (∀ u, u ≤ p.amount → unused_of (.success u) p.amount = u) := by
  have hs1 : get_balance (set_balance t.accounts p.receiver
      (rbal - min (unused_of outcome p.amount) rbal)) p.sender = some sbal := by
    rw [get_balance_set_balance_ne _ _ _ _ hne]
    exact hs
  by_cases h0 : min (unused_of outcome p.amount) rbal = 0
  · have heq : ft_resolve_transfer t p outcome = (t, p.amount, []) := by
      simp [ft_resolve_transfer, hr, h0]
    rw [heq]
    refine ⟨?_, ?_, ?_, rfl, fun u hu => by simp [unused_of, Nat.min_eq_left hu]⟩
    · simp [balance_of, hr, h0]
    · simp [balance_of, hs, h0]
    · simp [h0]
  · have e1 : get_balance (set_balance (set_balance t.accounts p.receiver
        (rbal - min (unused_of outcome p.amount) rbal)) p.sender
        (sbal + min (unused_of outcome p.amount) rbal)) p.receiver =
        some (rbal - min (unused_of outcome p.amount) rbal) := by
      rw [get_balance_set_balance_ne _ _ _ _ (Ne.symm hne)]
      exact get_balance_set_balance_self _ _ _ _ hr
    have e2 : get_balance (set_balance (set_balance t.accounts p.receiver
        (rbal - min (unused_of outcome p.amount) rbal)) p.sender
        (sbal + min (unused_of outcome p.amount) rbal)) p.sender =
        some (sbal + min (unused_of outcome p.amount) rbal) :=
      get_balance_set_balance_self _ _ _ _ hs1
    refine ⟨?_, ?_, ?_, rfl, fun u hu => by simp [unused_of, Nat.min_eq_left hu]⟩
    · simp [ft_resolve_transfer, hr, h0, hs1, balance_of, e1]
    · simp [ft_resolve_transfer, hr, h0, hs1, balance_of, e2]
    · simp [ft_resolve_transfer, hr, h0, hs1]

theorem two_phase_reconciliation_contract_witness :
    balance_of (ft_resolve_transfer ⟨[("bob", 1000), ("alice", 0)], 1000⟩
        ⟨"alice", "bob", 1000⟩ (.success 200)).1 "bob" =
      1000 - min (unused_of (.success 200) 1000) 1000 ∧
    balance_of (ft_resolve_transfer ⟨[("bob", 1000), ("alice", 0)], 1000⟩
        ⟨"alice", "bob", 1000⟩ (.success 200)).1 "alice" =
      0 + min (unused_of (.success 200) 1000) 1000 ∧
    (ft_resolve_transfer ⟨[("bob", 1000), ("alice", 0)], 1000⟩
        ⟨"alice", "bob", 1000⟩ (.success 200)).2.1 =
      1000 - min (unused_of (.success 200) 1000) 1000 ∧
    unused_of .failed 1000 = 1000 ∧
    (∀ u, u ≤ 1000 → unused_of (.success u) 1000 = u) :=
  two_phase_reconciliation_contract ⟨[("bob", 1000), ("alice", 0)], 1000⟩
    ⟨"alice", "bob", 1000⟩ (.success 200) 0 1000 (by decide) (by decide)
    (by decide)

/-- Claim C3: Single-phase transfer precondition and atomic-abort contract:
if the attached native value is not exactly 1 unit, or sender equals
receiver, or amount is zero, or the (registered) sender's balance is below
amount, the call fails with the corresponding error, and the whole contract
state - in particular both the sender's and the receiver's balances - is
exactly as it was before the call. -/
theorem transfer_preconditions_atomic_abort (s : ContractState) (att : Nat)
    (snd rcv : AccountId) (amt : Nat) (memo : Option String) :
    (att ≠ 1 → ft_transfer s.token att snd rcv amt memo =
      .error .RequiresExactOneYoctoDeposit) ∧
    (att = 1 → snd = rcv → ft_transfer s.token att snd rcv amt memo =
      .error .SelfTransfer) ∧
    (att = 1 → snd ≠ rcv → amt = 0 → ft_transfer s.token att snd rcv amt memo =
      .error .ZeroAmount) ∧
    (att = 1 → snd ≠ rcv → amt ≠ 0 → ∀ sbal rbal,
      get_balance s.token.accounts snd = some sbal →
      get_balance s.token.accounts rcv = some rbal →
      sbal < amt →
      ft_transfer s.token att snd rcv amt memo = .error .InsufficientBalance) ∧
    (∀ e, ft_transfer s.token att snd rcv amt memo = .error e →
      step s (.transfer att snd rcv amt memo) = s) := by
  refine ⟨?_, ?_, ?_, ?_, ?_⟩
  · intro h
    simp [ft_transfer, h]
  · intro h1 h2
    subst h1
    subst h2
    simp [ft_transfer]
  · intro h1 h2 h3
    subst h1
    subst h3
    simp [ft_transfer, h2]
  · intro h1 h2 h3 sbal rbal hs hr hlt
    subst h1
    simp [ft_transfer, h2, h3, hs, hr, Nat.not_le.mpr hlt]
  · intro e he
    simp [step, he]

theorem transfer_preconditions_atomic_abort_witness :
    ft_transfer ⟨[("alice", 10), ("bob", 0)], 10⟩ 0 "alice" "bob" 5 none =
      .error .RequiresExactOneYoctoDeposit ∧
    ft_transfer ⟨[("alice", 10), ("bob", 0)], 10⟩ 1 "alice" "bob" 25 none =
      .error .InsufficientBalance ∧
    step ⟨⟨[("alice", 10), ("bob", 0)], 10⟩, []⟩ (.transfer 0 "alice" "bob" 5 none) =
      ⟨⟨[("alice", 10), ("bob", 0)], 10⟩, []⟩ := by
  have h1 := transfer_preconditions_atomic_abort
    ⟨⟨[("alice", 10), ("bob", 0)], 10⟩, []⟩ 0 "alice" "bob" 5 none
  have h2 := transfer_preconditions_atomic_abort
    ⟨⟨[("alice", 10), ("bob", 0)], 10⟩, []⟩ 1 "alice" "bob" 25 none
  exact ⟨h1.1 (by decide),
    h2.2.2.2.1 rfl (by decide) (by decide) 10 0 (by decide) (by decide) (by decide),
    h1.2.2.2.2 _ (h1.1 (by decide))⟩

/-- Claim C7: A transfer that satisfies all preconditions debits the sender by
exactly amount and credits the receiver by exactly amount, with no other
balance changed; in particular, with total supply 1,000,000,000,000,000 held
by the owner and a freshly registered receiver, transferring
333,333,333,333,333 leaves the owner with 666,666,666,666,667 and the
receiver with 333,333,333,333,333. -/
theorem transfer_exact_debit_credit :
    (∀ (t : FungibleToken) (snd rcv : AccountId) (amt : Nat)
      (memo : Option String) (sbal rbal : Nat), snd ≠ rcv → amt ≠ 0 →
      get_balance t.accounts snd = some sbal →
      get_balance t.accounts rcv = some rbal →
      amt ≤ sbal → rbal + amt ≤ U128_MAX →
      ∃ t', ft_transfer t 1 snd rcv amt memo =
          .ok (t', [.transferEv snd rcv amt memo]) ∧
        balance_of t' snd = sbal - amt ∧
        balance_of t' rcv = rbal + amt ∧
        (∀ c, c ≠ snd → c ≠ rcv → balance_of t' c = balance_of t c) ∧
        t'.total_supply = t.total_supply) ∧
    (∃ t1 t2,
      storage_deposit ⟨[("owner", 1000000000000000)], 1000000000000000⟩
        storage_min "receiver" = .ok (t1, 0) ∧
      ft_transfer t1 1 "owner" "receiver" 333333333333333 none =
        .ok (t2, [.transferEv "owner" "receiver" 333333333333333 none]) ∧
      balance_of t2 "owner" = 666666666666667 ∧
      balance_of t2 "receiver" = 333333333333333) := by
  constructor
  · intro t snd rcv amt memo sbal rbal hne hamt hs hr hle hov
    have h1 : get_balance (set_balance t.accounts snd (sbal - amt)) rcv =
        some rbal := by
      rw [get_balance_set_balance_ne _ _ _ _ (Ne.symm hne)]
      exact hr
    refine ⟨{ t with accounts := set_balance (set_balance t.accounts snd (sbal - amt)) rcv (rbal + amt) }, ?_, ?_, ?_, ?_, rfl⟩
    · simp [ft_transfer, hne, hamt, hs, hr, hle, hov]
    · have e1 : get_balance (set_balance (set_balance t.accounts snd (sbal - amt))
          rcv (rbal + amt)) snd = some (sbal - amt) := by
        rw [get_balance_set_balance_ne _ _ _ _ hne]
        exact get_balance_set_balance_self _ _ _ _ hs
      simp [balance_of, e1]
    · have e2 : get_balance (set_balance (set_balance t.accounts snd (sbal - amt))
          rcv (rbal + amt)) rcv = some (rbal + amt) :=
        get_balance_set_balance_self _ _ _ _ h1
      simp [balance_of, e2]
    · intro c hcs hcr
      have e3 : get_balance (set_balance (set_balance t.accounts snd (sbal - amt))
          rcv (rbal + amt)) c = get_balance t.accounts c := by
        rw [get_balance_set_balance_ne _ _ _ _ hcr,
          get_balance_set_balance_ne _ _ _ _ hcs]
      simp [balance_of, e3]
  · refine ⟨⟨[("receiver", 0), ("owner", 1000000000000000)], 1000000000000000⟩, ⟨[("receiver", 333333333333333), ("owner", 666666666666667)], 1000000000000000⟩, ?_, ?_, ?_, ?_⟩
    · rfl
    · rfl
    · rfl
    · rfl

theorem transfer_exact_debit_credit_witness :
    ∃ t', ft_transfer ⟨[("receiver", 0), ("owner", 1000000000000000)],
        1000000000000000⟩ 1 "owner" "receiver" 333333333333333 none =
        .ok (t', [.transferEv "owner" "receiver" 333333333333333 none]) ∧
      balance_of t' "owner" = 1000000000000000 - 333333333333333 ∧
      balance_of t' "receiver" = 0 + 333333333333333 ∧
      (∀ c, c ≠ "owner" → c ≠ "receiver" → balance_of t' c =
        balance_of ⟨[("receiver", 0), ("owner", 1000000000000000)],
          1000000000000000⟩ c) ∧
      t'.total_supply = 1000000000000000 :=
  transfer_exact_debit_credit.1
    ⟨[("receiver", 0), ("owner", 1000000000000000)], 1000000000000000⟩
    "owner" "receiver" 333333333333333 none 1000000000000000 0
    (by decide) (by decide) (by decide) (by decide) (by decide) (by decide)

end MetaGalleryFT
